import Mathlib

/-!
Verification development for the Auriga Simracing cable-management tool
(a Three.js STL viewer with a single-axis parametric scale engine).

The embedding models geometry as a finite list of 3-D vertex positions with
exact rational coordinates.  The operations are translated from:
  - `src/src/App.tsx` (React variant UI: depth input onChange/onBlur, reset,
    export trigger) and the concatenated vanilla `main.ts` part of the same
    file (`computeAxisLengths`, `getScaleForTargetLength`,
    `bakeScaleAlongAxis`, `resetScaleBtn` handler, `exportCurrentMeshAsSTL`);
  - `src/src/components/ThreeScene.tsx` (the depth-scaling `useEffect`,
    `exportSTL`);
  - `src/unnamed/part_001` (the depth-and-height variant of the scaling
    `useEffect`, with the selective upward extrusion of extremity vertices).

Three.js collaborators are embedded by their observable effect on vertex
data: `Matrix4.makeScale(sx,sy,sz)` followed by `applyMatrix4` multiplies
each vertex componentwise by the diagonal `(sx,sy,sz)`;
`Box3.setFromBufferAttribute` / `computeBoundingBox` yields the
componentwise min and max over all vertices; `clone()` yields an equal,
independent copy (lists are values here, so a clone is the geometry
itself).
-/

/-- A vertex position: one entry of the `position` buffer attribute. -/
structure Vec3 where
  x : ℚ
  y : ℚ
  z : ℚ
  deriving DecidableEq, Repr

/-- The three coordinate axes (`'x' | 'y' | 'z'` in the source). -/
inductive Axis where
  | x
  | y
  | z
  deriving DecidableEq, Repr

/-- A geometry is its ordered vertex-position buffer
(`BufferGeometry.getAttribute('position')`). -/
abbrev Geometry := List Vec3

/-- Read the coordinate of a vertex along one axis. -/
def axisCoord (a : Axis) (v : Vec3) : ℚ :=
  match a with
  | Axis.x => v.x
  | Axis.y => v.y
  | Axis.z => v.z

/-- Maximum of a coordinate list, as `Box3` accumulates it over the
position attribute (0 for an empty buffer, which the guards below treat
as degenerate anyway). -/
def listMax : List ℚ → ℚ
  | [] => 0
  | q :: qs => qs.foldl max q

/-- Minimum of a coordinate list, as `Box3` accumulates it. -/
def listMin : List ℚ → ℚ
  | [] => 0
  | q :: qs => qs.foldl min q

/-- The coordinates of all vertices of a geometry along one axis. -/
def axisCoords (g : Geometry) (a : Axis) : List ℚ :=
  g.map (axisCoord a)

/-- `bb.max[axis] - bb.min[axis]`: the extent of the bounding box along one
axis.  Embeds `computeAxisLengths` of `main.ts` (read at one axis) and the
`bbox.max.z - bbox.min.z` / `bbox.max.y - bbox.min.y` computations of the
`useEffect`s in `ThreeScene.tsx` and `part_001`. -/
def measureAxisExtent (g : Geometry) (a : Axis) : ℚ :=
  listMax (axisCoords g a) - listMin (axisCoords g a)

/-- The diagonal of `Matrix4.makeScale` as built by `bakeScaleAlongAxis`:
`s = (1,1,1)` then `s[axis] = scale`. -/
def makeScaleVec (a : Axis) (scale : ℚ) : Vec3 :=
  match a with
  | Axis.x => ⟨scale, 1, 1⟩
  | Axis.y => ⟨1, scale, 1⟩
  | Axis.z => ⟨1, 1, scale⟩

/-- Action of the diagonal scale matrix on one vertex
(`geo.applyMatrix4(mat)` with `mat = makeScale(sv)`). -/
def applyScaleMatrix (sv : Vec3) (v : Vec3) : Vec3 :=
  ⟨sv.x * v.x, sv.y * v.y, sv.z * v.z⟩

/-- The geometry part of `bakeScaleAlongAxis` (main.ts) and of the
depth-scaling `useEffect` (ThreeScene.tsx): clone the geometry and bake the
diagonal scale matrix with `scale` on the chosen axis and 1 elsewhere onto
every vertex. -/
def applyAxisScale (g : Geometry) (a : Axis) (scale : ℚ) : Geometry :=
  g.map (applyScaleMatrix (makeScaleVec a scale))

/-- `getScaleForTargetLength` (main.ts line 284): `cur > 0 ? target / cur : 1`. -/
def getScaleForTargetLength (g : Geometry) (a : Axis) (target : ℚ) : ℚ :=
  if 0 < measureAxisExtent g a then target / measureAxisExtent g a else 1

/-- The model state of either variant: `baseGeometry` (the immutable
original kept for reset and scaling calculations) and the geometry
currently installed on the display mesh (`mesh.geometry`). -/
structure Session where
  base : Geometry
  displayed : Geometry
  deriving DecidableEq, Repr

/-- The depth-scaling `useEffect` of `ThreeScene.tsx` (lines 208-237):
measure the Z extent of `baseGeometry`; if `currentDepth <= 0` return
(previous geometry retained); otherwise clone the base, bake
`makeScale(1, 1, targetDepth / currentDepth)` and install the result. -/
def applyDepth (s : Session) (targetDepth : ℚ) : Session :=
  let currentDepth := measureAxisExtent s.base Axis.z
  if currentDepth ≤ 0 then s
  else { s with displayed := applyAxisScale s.base Axis.z (targetDepth / currentDepth) }

/-- The depth slider handler of `main.ts` (lines 356-362 composed with
`bakeScaleAlongAxis`): compute the factor with `getScaleForTargetLength`
on the base geometry and bake it onto a clone of the base, installing the
result as the displayed geometry. -/
def bakeScaleAlongAxisOp (s : Session) (a : Axis) (target : ℚ) : Session :=
  { s with displayed := applyAxisScale s.base a (getScaleForTargetLength s.base a target) }

/-- The `resetScaleBtn` click handler of `main.ts` (lines 385-393):
`mesh.geometry = baseGeometry.clone()`. -/
def resetOp (s : Session) : Session :=
  { s with displayed := s.base }

/-- The React Reset button of `App.tsx` (lines 88-96) composed with the
depth-scaling effect it triggers: the click handler runs
`setParameters({ depth: 10 })`, restoring the default depth parameter,
and the `useEffect` of `ThreeScene.tsx` keyed on `parameters.depth` then
re-runs with target 10 and bakes it onto a clone of the base. -/
def resetButtonClick (s : Session) : Session :=
  applyDepth s 10

/-- A user action on the scale engine: one depth-scale request (React
variant), one slider-driven bake (main.ts variant), or a reset. -/
inductive Op where
  | setDepth (target : ℚ)
  | bakeDepth (target : ℚ)
  | reset
  deriving Repr

/-- Run one action against the session. -/
def runOp (s : Session) (o : Op) : Session :=
  match o with
  | Op.setDepth t => applyDepth s t
  | Op.bakeDepth t => bakeScaleAlongAxisOp s Axis.z t
  | Op.reset => resetOp s

/-- Run a sequence of actions against the session. -/
def runOps (s : Session) (ops : List Op) : Session :=
  ops.foldl runOp s

/-- The selective height extrusion of `part_001` (lines 247-286), applied
after depth scaling when `heightScale !== 1`: recompute the bounding box,
take the inner-corner threshold at 55% of the Y range, compute
`extrusionHeight = (heightScale - 1) * (maxY - yThreshold)`, and when it
is positive move every vertex that is above the threshold and in the
outer 50% of the X range (distance from centre beyond 25% of the X range)
upward by `extrusionHeight`. -/
def heightExtrude (g : Geometry) (heightScale : ℚ) : Geometry :=
  let minY := listMin (axisCoords g Axis.y)
  let maxY := listMax (axisCoords g Axis.y)
  let yRange := maxY - minY
  let yThreshold := minY + yRange * (55 / 100)
  let extrusionHeight := (heightScale - 1) * (maxY - yThreshold)
  if 0 < extrusionHeight then
    let minX := listMin (axisCoords g Axis.x)
    let maxX := listMax (axisCoords g Axis.x)
    let xRange := maxX - minX
    let centerX := (minX + maxX) / 2
    g.map fun v =>
      if yThreshold < v.y ∧ xRange * (25 / 100) < |v.x - centerX| then
        ⟨v.x, v.y + extrusionHeight, v.z⟩
      else v
  else g

/-- The depth-and-height `useEffect` of `part_001` (lines 217-298): guard
on both base extents, scale depth uniformly via the matrix when
`depthScale !== 1`, then apply the selective height extrusion when
`heightScale !== 1`, and install the result. -/
def applyDepthHeight (s : Session) (targetDepth targetHeight : ℚ) : Session :=
  let currentDepth := measureAxisExtent s.base Axis.z
  let currentHeight := measureAxisExtent s.base Axis.y
  if currentDepth ≤ 0 ∨ currentHeight ≤ 0 then s
  else
    let depthScale := targetDepth / currentDepth
    let heightScale := targetHeight / currentHeight
    let g1 := if depthScale = 1 then s.base else applyAxisScale s.base Axis.z depthScale
    let g2 := if heightScale = 1 then g1 else heightExtrude g1 heightScale
    { s with displayed := g2 }

/-- The depth number input's `onChange` in `App.tsx` (lines 48-54): any
numeric value typed is stored as the new depth parameter unchanged
("Allow any input while typing, validate on blur"). -/
def onChangeDepth (current entered : ℚ) : ℚ :=
  entered

/-- The depth number input's `onBlur` in `App.tsx` (lines 55-63): if the
field value is below 10 the parameter becomes 10, if above 300 it becomes
300, otherwise the parameter is left as it is. -/
def onBlurDepth (current entered : ℚ) : ℚ :=
  if entered < 10 then 10 else if entered > 300 then 300 else current

/-- A triggered STL download: the file name tag and the geometry handed
to the external `STLExporter`. -/
structure Download where
  fileName : String
  payload : Geometry
  deriving DecidableEq, Repr

/-- Observable outcome of an export request: the download offered (if
any) and whether a console warning was emitted. -/
structure ExportOutcome where
  download : Option Download
  warned : Bool
  deriving DecidableEq, Repr

/-- The scene state the React export reads: `sceneRef.current.mesh`
(`none` before any mesh has been loaded) plus the base geometry. -/
structure SceneState where
  mesh : Option Geometry
  baseGeometry : Option Geometry
  deriving DecidableEq, Repr

/-- `exportSTL` of `ThreeScene.tsx` (lines 31-49): with no mesh, warn
("No mesh to export") and return; otherwise hand the mesh to the exporter
and offer the download, touching no session state (the state is returned
unchanged alongside the outcome). -/
def exportSTL (st : SceneState) : SceneState × ExportOutcome :=
  match st.mesh with
  | none => (st, { download := none, warned := true })
  | some g => (st, { download := some { fileName := "auriga_cable_guide.stl", payload := g }, warned := false })

/-- `exportCurrentMeshAsSTL` of `main.ts` (lines 314-326): with no mesh,
return silently; otherwise offer the download. -/
def exportCurrentMeshAsSTL (st : SceneState) : SceneState × ExportOutcome :=
  match st.mesh with
  | none => (st, { download := none, warned := false })
  | some g => (st, { download := some { fileName := "auriga-simracing-cable-guide.stl", payload := g }, warned := false })

/-- A small concrete geometry used to instantiate the theorems: extents
40 (X), 20 (Y) and 50 (Z), matching the spec's concrete scenario of a
base Z-extent of 50. -/
def demoBase : Geometry := [⟨0, 0, 0⟩, ⟨40, 20, 50⟩]

/-- The session right after load: the displayed geometry is a clone of
the base geometry. -/
def demoSession : Session := { base := demoBase, displayed := demoBase }

/-- A degenerate geometry: a single vertex, so every extent is 0. -/
def degBase : Geometry := [⟨0, 0, 0⟩]

/-- A session whose base geometry is degenerate. -/
def degSession : Session := { base := degBase, displayed := degBase }

/-! ### Helper lemmas -/

lemma Vec3.eta (v : Vec3) : (⟨v.x, v.y, v.z⟩ : Vec3) = v := rfl

lemma axisCoord_scale_target (a : Axis) (sc : ℚ) (v : Vec3) :
    axisCoord a (applyScaleMatrix (makeScaleVec a sc) v) = sc * axisCoord a v := by
  cases a <;> simp [axisCoord, applyScaleMatrix, makeScaleVec]

lemma axisCoord_scale_other {a b : Axis} (h : b ≠ a) (sc : ℚ) (v : Vec3) :
    axisCoord b (applyScaleMatrix (makeScaleVec a sc) v) = axisCoord b v := by
  cases a <;> cases b <;>
    first
      | exact absurd rfl h
      | simp [axisCoord, applyScaleMatrix, makeScaleVec]

lemma axisCoords_applyAxisScale_self (g : Geometry) (a : Axis) (sc : ℚ) :
    axisCoords (applyAxisScale g a sc) a = (axisCoords g a).map (fun q => sc * q) := by
  simp only [axisCoords, applyAxisScale, List.map_map]
  congr 1
  funext v
  simp [Function.comp, axisCoord_scale_target]

lemma axisCoords_applyAxisScale_other (g : Geometry) {a b : Axis} (h : b ≠ a) (sc : ℚ) :
    axisCoords (applyAxisScale g a sc) b = axisCoords g b := by
  simp only [axisCoords, applyAxisScale, List.map_map]
  congr 1
  funext v
  simp [Function.comp, axisCoord_scale_other h]

lemma foldl_max_map_mul (sc : ℚ) (hsc : 0 ≤ sc) (l : List ℚ) (q : ℚ) :
    (l.map (fun x => sc * x)).foldl max (sc * q) = sc * l.foldl max q := by
  induction l generalizing q with
  | nil => rfl
  | cons a t ih =>
      simp only [List.map_cons, List.foldl_cons]
      rw [← mul_max_of_nonneg q a hsc]
      exact ih (max q a)

lemma foldl_min_map_mul (sc : ℚ) (hsc : 0 ≤ sc) (l : List ℚ) (q : ℚ) :
    (l.map (fun x => sc * x)).foldl min (sc * q) = sc * l.foldl min q := by
  induction l generalizing q with
  | nil => rfl
  | cons a t ih =>
      simp only [List.map_cons, List.foldl_cons]
      rw [← mul_min_of_nonneg q a hsc]
      exact ih (min q a)

lemma listMax_map_mul (sc : ℚ) (hsc : 0 ≤ sc) (l : List ℚ) :
    listMax (l.map fun x => sc * x) = sc * listMax l := by
  cases l with
  | nil => simp [listMax]
  | cons q t => exact foldl_max_map_mul sc hsc t q

lemma listMin_map_mul (sc : ℚ) (hsc : 0 ≤ sc) (l : List ℚ) :
    listMin (l.map fun x => sc * x) = sc * listMin l := by
  cases l with
  | nil => simp [listMin]
  | cons q t => exact foldl_min_map_mul sc hsc t q

lemma measureAxisExtent_applyAxisScale (g : Geometry) (a : Axis) (sc : ℚ) (hsc : 0 ≤ sc) :
    measureAxisExtent (applyAxisScale g a sc) a = sc * measureAxisExtent g a := by
  unfold measureAxisExtent
  rw [axisCoords_applyAxisScale_self, listMax_map_mul sc hsc, listMin_map_mul sc hsc, mul_sub]

lemma measureAxisExtent_applyAxisScale_other (g : Geometry) {a b : Axis} (h : b ≠ a) (sc : ℚ) :
    measureAxisExtent (applyAxisScale g a sc) b = measureAxisExtent g b := by
  unfold measureAxisExtent
  rw [axisCoords_applyAxisScale_other g h]

lemma getScaleForTargetLength_pos (g : Geometry) (a : Axis) (t : ℚ)
    (h : 0 < measureAxisExtent g a) :
    getScaleForTargetLength g a t = t / measureAxisExtent g a := by
  unfold getScaleForTargetLength
  exact if_pos h

lemma getScaleForTargetLength_nonpos (g : Geometry) (a : Axis) (t : ℚ)
    (h : measureAxisExtent g a ≤ 0) :
    getScaleForTargetLength g a t = 1 := by
  unfold getScaleForTargetLength
  exact if_neg (not_lt.mpr h)

lemma applyAxisScale_one (g : Geometry) (a : Axis) : applyAxisScale g a 1 = g := by
  unfold applyAxisScale
  have h : applyScaleMatrix (makeScaleVec a 1) = fun v => v := by
    funext v
    cases a <;> simp [applyScaleMatrix, makeScaleVec, Vec3.eta]
  rw [h]
  simp

lemma base_runOp (s : Session) (o : Op) : (runOp s o).base = s.base := by
  cases o with
  | setDepth t =>
      show (applyDepth s t).base = s.base
      simp only [applyDepth]
      split <;> rfl
  | bakeDepth t => rfl
  | reset => rfl

lemma base_runOps (s : Session) (ops : List Op) : (runOps s ops).base = s.base := by
  induction ops generalizing s with
  | nil => rfl
  | cons o os ih =>
      show (runOps (runOp s o) os).base = s.base
      rw [ih (runOp s o), base_runOp]

lemma heightExtrude_eq_self (g : Geometry) (hs : ℚ) (h1 : hs ≤ 1)
    (h2 : 0 ≤ listMax (axisCoords g Axis.y) - listMin (axisCoords g Axis.y)) :
    heightExtrude g hs = g := by
  simp only [heightExtrude]
  split
  · rename_i hpos
    exfalso
    set M := listMax (axisCoords g Axis.y) with hM
    set m := listMin (axisCoords g Axis.y) with hm
    have hX : (0 : ℚ) ≤ M - (m + (M - m) * (55 / 100)) := by linarith
    have hnn : (0 : ℚ) ≤ (1 - hs) * (M - (m + (M - m) * (55 / 100))) :=
      mul_nonneg (by linarith) hX
    have heq : (hs - 1) * (M - (m + (M - m) * (55 / 100)))
        = -((1 - hs) * (M - (m + (M - m) * (55 / 100)))) := by ring
    rw [heq] at hpos
    linarith
  · rfl

lemma axisCoords_depthStep_y (s : Session) (tD : ℚ) :
    axisCoords (if tD / measureAxisExtent s.base Axis.z = 1 then s.base
      else applyAxisScale s.base Axis.z (tD / measureAxisExtent s.base Axis.z)) Axis.y
      = axisCoords s.base Axis.y := by
  split
  · rfl
  · exact axisCoords_applyAxisScale_other s.base (by decide) _

lemma displayed_applyDepthHeight (s : Session) (tD tH : ℚ)
    (hD : 0 < measureAxisExtent s.base Axis.z)
    (hH : 0 < measureAxisExtent s.base Axis.y)
    (hle : tH ≤ measureAxisExtent s.base Axis.y) :
    (applyDepthHeight s tD tH).displayed
      = if tD / measureAxisExtent s.base Axis.z = 1 then s.base
        else applyAxisScale s.base Axis.z (tD / measureAxisExtent s.base Axis.z) := by
  have hno : ¬(measureAxisExtent s.base Axis.z ≤ 0 ∨ measureAxisExtent s.base Axis.y ≤ 0) :=
    not_or.mpr ⟨not_le.mpr hD, not_le.mpr hH⟩
  simp only [applyDepthHeight]
  rw [if_neg hno]
  split
  · rfl
  · apply heightExtrude_eq_self
    · exact (div_le_one hH).mpr hle
    · have hc := axisCoords_depthStep_y s tD
      rw [hc]
      have : listMax (axisCoords s.base Axis.y) - listMin (axisCoords s.base Axis.y)
          = measureAxisExtent s.base Axis.y := rfl
      rw [this]
      exact hH.le

/-! ### Claim theorems -/

/-- C1: for every target length T in the configured domain [10, 300] and
every base geometry with positive extent along the scale axis, baking the
diagonal scale matrix with factor `T / current extent` onto a clone of
the base geometry yields a geometry whose extent along that axis equals T
(exactly, in the rational model, hence within floating-point tolerance). -/
theorem scale_hits_target (g : Geometry) (a : Axis) (T : ℚ)
    (hT1 : 10 ≤ T) (hT2 : T ≤ 300) (hpos : 0 < measureAxisExtent g a) :
    measureAxisExtent (applyAxisScale g a (getScaleForTargetLength g a T)) a = T := by
  rw [getScaleForTargetLength_pos g a T hpos,
    measureAxisExtent_applyAxisScale g a _ (div_nonneg (by linarith) hpos.le),
    div_mul_cancel₀ T (ne_of_gt hpos)]

/-- Witness for C1 at the spec's concrete scenario: base Z-extent 50,
target 100. -/
theorem scale_hits_target_witness :
    (10 : ℚ) ≤ 100 ∧ (100 : ℚ) ≤ 300 ∧ 0 < measureAxisExtent demoBase Axis.z ∧
    measureAxisExtent
      (applyAxisScale demoBase Axis.z (getScaleForTargetLength demoBase Axis.z 100))
      Axis.z = 100 := by
  have hpos : 0 < measureAxisExtent demoBase Axis.z := by
    norm_num [demoBase, measureAxisExtent, axisCoords, axisCoord, listMax, listMin]
  exact ⟨by norm_num, by norm_num, hpos,
    scale_hits_target demoBase Axis.z 100 (by norm_num) (by norm_num) hpos⟩

/-- C2: for every target length T, the baked scale matrix has 1.0 on the
two non-target axes, so the extents along the two non-target axes equal
the base geometry's extents. -/
theorem nontarget_axes_invariant (g : Geometry) (a b : Axis) (T : ℚ) (h : b ≠ a) :
    measureAxisExtent (applyAxisScale g a (getScaleForTargetLength g a T)) b
      = measureAxisExtent g b :=
  measureAxisExtent_applyAxisScale_other g h _

/-- Witness for C2: scaling along Z leaves the Y extent of the demo
geometry unchanged. -/
theorem nontarget_axes_invariant_witness :
    (Axis.y ≠ Axis.z) ∧
    measureAxisExtent (applyAxisScale demoBase Axis.z (getScaleForTargetLength demoBase Axis.z 100))
      Axis.y = measureAxisExtent demoBase Axis.y :=
  ⟨by decide, nontarget_axes_invariant demoBase Axis.z Axis.y 100 (by decide)⟩

/-- C3: the depth-scale operation always starts from a clone of the
immutable base geometry, so it is idempotent (applying the same target
twice yields the identical session), and whenever the base extent is
positive its result after any sequence of prior scale/bake/reset
operations equals its result on the freshly loaded session. -/
theorem applyDepth_pure (s : Session) (ops : List Op) (T : ℚ) :
    applyDepth (applyDepth s T) T = applyDepth s T ∧
    (0 < measureAxisExtent s.base Axis.z →
      applyDepth (runOps s ops) T = applyDepth s T) := by
  constructor
  · by_cases h : measureAxisExtent s.base Axis.z ≤ 0
    · have hs : applyDepth s T = s := by simp [applyDepth, h]
      rw [hs, hs]
    · have h1 : applyDepth s T
          = { base := s.base,
              displayed := applyAxisScale s.base Axis.z
                (T / measureAxisExtent s.base Axis.z) } := by
        simp [applyDepth, h]
      rw [h1]
      simp [applyDepth, h]
  · intro hpos
    have hb := base_runOps s ops
    have hng : ¬ measureAxisExtent s.base Axis.z ≤ 0 := not_le.mpr hpos
    simp [applyDepth, hb, hng]

/-- Witness for C3: the demo session has positive base Z-extent, applying
target 100 twice equals applying it once, and applying it after a prior
scale-and-reset history equals applying it directly. -/
theorem applyDepth_pure_witness :
    0 < measureAxisExtent demoSession.base Axis.z ∧
    applyDepth (applyDepth demoSession 100) 100 = applyDepth demoSession 100 ∧
    applyDepth (runOps demoSession [Op.setDepth 30, Op.reset, Op.bakeDepth 200]) 100
      = applyDepth demoSession 100 := by
  have hpos : 0 < measureAxisExtent demoSession.base Axis.z := by
    norm_num [demoSession, demoBase, measureAxisExtent, axisCoords, axisCoord, listMax, listMin]
  exact ⟨hpos,
    (applyDepth_pure demoSession [Op.setDepth 30, Op.reset, Op.bakeDepth 200] 100).1,
    (applyDepth_pure demoSession [Op.setDepth 30, Op.reset, Op.bakeDepth 200] 100).2 hpos⟩

/-- C4 counterexample: the claim says invoking reset yields a geometry
whose extent along every axis equals the original base geometry's
extent.  That holds for the main.ts `resetScaleBtn`, but the claim's
other cited source, the React Reset button, does
`setParameters({ depth: 10 })` and the depth effect then bakes Z-extent
10: on a base with Z-extent 50 the reset geometry has Z-extent 10, not
50. -/
theorem react_reset_bakes_default_depth :
    measureAxisExtent (resetButtonClick demoSession).displayed Axis.z = 10 ∧
    measureAxisExtent demoSession.base Axis.z = 50 ∧
    ¬ measureAxisExtent (resetButtonClick demoSession).displayed Axis.z
        = measureAxisExtent demoSession.base Axis.z := by
  refine ⟨?_, ?_, ?_⟩ <;>
    norm_num [resetButtonClick, demoSession, demoBase, applyDepth, applyAxisScale,
      applyScaleMatrix, makeScaleVec, measureAxisExtent, axisCoords, axisCoord, listMax, listMin]

/-- C4 (amended): the main.ts `resetScaleBtn` installs a fresh clone of
the base geometry, whose extent along every axis equals the original
base geometry's extent regardless of how many scale operations preceded
it; the React Reset button instead resets the depth parameter to its
default 10, after which the baked geometry has Z-extent 10 (equal to
the original extent only if the base Z-extent is 10) while its extents
along the non-Z axes still equal the base geometry's. -/
theorem reset_variants_extents (s : Session) (ops : List Op) (a b : Axis)
    (hb : b ≠ Axis.z) :
    measureAxisExtent (resetOp (runOps s ops)).displayed a = measureAxisExtent s.base a ∧
    (0 < measureAxisExtent s.base Axis.z →
      measureAxisExtent (resetButtonClick s).displayed Axis.z = 10 ∧
      measureAxisExtent (resetButtonClick s).displayed b = measureAxisExtent s.base b) := by
  constructor
  · show measureAxisExtent (runOps s ops).base a = measureAxisExtent s.base a
    rw [base_runOps]
  · intro hpos
    have hng : ¬ measureAxisExtent s.base Axis.z ≤ 0 := not_le.mpr hpos
    have hd : (resetButtonClick s).displayed
        = applyAxisScale s.base Axis.z (10 / measureAxisExtent s.base Axis.z) := by
      simp [resetButtonClick, applyDepth, hng]
    constructor
    · rw [hd, measureAxisExtent_applyAxisScale s.base Axis.z _
        (div_nonneg (by norm_num) hpos.le), div_mul_cancel₀ 10 (ne_of_gt hpos)]
    · rw [hd, measureAxisExtent_applyAxisScale_other s.base hb]

/-- Witness for the amended C4: main.ts reset after a real history
restores the X extent, and the React reset on the demo session bakes
Z-extent 10 while keeping the Y extent. -/
theorem reset_variants_extents_witness :
    (Axis.y ≠ Axis.z) ∧ 0 < measureAxisExtent demoSession.base Axis.z ∧
    measureAxisExtent
      (resetOp (runOps demoSession [Op.setDepth 30, Op.bakeDepth 200])).displayed Axis.x
      = measureAxisExtent demoSession.base Axis.x ∧
    measureAxisExtent (resetButtonClick demoSession).displayed Axis.z = 10 ∧
    measureAxisExtent (resetButtonClick demoSession).displayed Axis.y
      = measureAxisExtent demoSession.base Axis.y := by
  have hb : Axis.y ≠ Axis.z := by decide
  have hpos : 0 < measureAxisExtent demoSession.base Axis.z := by
    norm_num [demoSession, demoBase, measureAxisExtent, axisCoords, axisCoord, listMax, listMin]
  have hc := reset_variants_extents demoSession [Op.setDepth 30, Op.bakeDepth 200] Axis.x Axis.y hb
  exact ⟨hb, hpos, hc.1, (hc.2 hpos).1, (hc.2 hpos).2⟩

/-- C5 counterexample: the claim says the scale-factor computation
reports an error (a surfaced condition) exactly when the base extent is
≤ 0.  `getScaleForTargetLength` has no error channel at all: on a
degenerate geometry it returns the plain factor 1, observationally
identical to a successful call on a healthy geometry whose computed
factor is also 1 — nothing distinguishes the degenerate case for the
caller. -/
theorem scaleFactor_no_error_surfaced :
    measureAxisExtent degBase Axis.z ≤ 0 ∧
    0 < measureAxisExtent [(⟨0, 0, 0⟩ : Vec3), ⟨0, 0, 100⟩] Axis.z ∧
    getScaleForTargetLength degBase Axis.z 100
      = getScaleForTargetLength [(⟨0, 0, 0⟩ : Vec3), ⟨0, 0, 100⟩] Axis.z 100 ∧
    getScaleForTargetLength degBase Axis.z 100 = 1 := by
  norm_num [degBase, getScaleForTargetLength, measureAxisExtent, axisCoords, axisCoord,
    listMax, listMin]

/-- C5 (amended): when the base extent along the scale axis is ≤ 0 the
computation silently returns the defensive factor 1 (no error is
surfaced); otherwise it returns targetLength divided by that extent — so
the division is only ever performed with a positive divisor and no
divide-by-zero factor reaches the baking step. -/
theorem scaleFactor_silent_default (g : Geometry) (a : Axis) (t : ℚ) :
    (measureAxisExtent g a ≤ 0 → getScaleForTargetLength g a t = 1) ∧
    (0 < measureAxisExtent g a →
      getScaleForTargetLength g a t = t / measureAxisExtent g a) :=
  ⟨getScaleForTargetLength_nonpos g a t, getScaleForTargetLength_pos g a t⟩

/-- Witness for the amended C5: both branches at concrete geometries. -/
theorem scaleFactor_silent_default_witness :
    (measureAxisExtent degBase Axis.z ≤ 0 ∧ getScaleForTargetLength degBase Axis.z 100 = 1) ∧
    (0 < measureAxisExtent demoBase Axis.z ∧
      getScaleForTargetLength demoBase Axis.z 100 = 100 / measureAxisExtent demoBase Axis.z) := by
  have h1 : measureAxisExtent degBase Axis.z ≤ 0 := by
    norm_num [degBase, measureAxisExtent, axisCoords, axisCoord, listMax, listMin]
  have h2 : 0 < measureAxisExtent demoBase Axis.z := by
    norm_num [demoBase, measureAxisExtent, axisCoords, axisCoord, listMax, listMin]
  exact ⟨⟨h1, (scaleFactor_silent_default degBase Axis.z 100).1 h1⟩,
    ⟨h2, (scaleFactor_silent_default demoBase Axis.z 100).2 h2⟩⟩

/-- C6: with a degenerate base (extent ≤ 0 along the scale axis) the
React depth effect returns before scaling, retaining the previously
displayed geometry; the main.ts factor defaults to 1, and baking factor 1
reproduces the base geometry unchanged — a recoverable no-op, no crash
path. -/
theorem degenerate_extent_noop (s : Session) (T : ℚ)
    (h : measureAxisExtent s.base Axis.z ≤ 0) :
    applyDepth s T = s ∧
    getScaleForTargetLength s.base Axis.z T = 1 ∧
    applyAxisScale s.base Axis.z (getScaleForTargetLength s.base Axis.z T) = s.base := by
  refine ⟨by simp [applyDepth, h], getScaleForTargetLength_nonpos s.base Axis.z T h, ?_⟩
  rw [getScaleForTargetLength_nonpos s.base Axis.z T h, applyAxisScale_one]

/-- Witness for C6 at the single-vertex degenerate session. -/
theorem degenerate_extent_noop_witness :
    measureAxisExtent degSession.base Axis.z ≤ 0 ∧
    applyDepth degSession 100 = degSession ∧
    getScaleForTargetLength degSession.base Axis.z 100 = 1 ∧
    applyAxisScale degSession.base Axis.z (getScaleForTargetLength degSession.base Axis.z 100)
      = degSession.base := by
  have h : measureAxisExtent degSession.base Axis.z ≤ 0 := by
    norm_num [degSession, degBase, measureAxisExtent, axisCoords, axisCoord, listMax, listMin]
  have hc := degenerate_extent_noop degSession 100 h
  exact ⟨h, hc.1, hc.2.1, hc.2.2⟩

/-- C7 counterexample: the claim says a requested target outside
[10, 300] is clamped before the scale computation is invoked and the
baked value is always within the domain.  In the React variant the
`onChange` handler stores the raw typed value and the depth effect bakes
it immediately: typing 5 reaches the engine as 5 and the baked Z-extent
is 5, outside the domain (clamping only happens later, on blur). -/
theorem raw_target_reaches_engine :
    onChangeDepth 10 5 = 5 ∧
    measureAxisExtent (applyDepth demoSession (onChangeDepth 10 5)).displayed Axis.z = 5 ∧
    ¬ (10 : ℚ) ≤ 5 := by
  refine ⟨rfl, ?_, by norm_num⟩
  norm_num [demoSession, demoBase, onChangeDepth, applyDepth, applyAxisScale,
    applyScaleMatrix, makeScaleVec, measureAxisExtent, axisCoords, axisCoord, listMax, listMin]

/-- C7 (amended): the [10, 300] clamp is enforced only on blur of the
number input (a typed 5 becomes 10 and a typed 400 becomes 300 when the
field loses focus, and the post-blur value always lies in the domain);
while typing, the raw out-of-domain value does reach the scale
computation and is baked until blur corrects it. -/
theorem onBlur_clamps (c v : ℚ) :
    onBlurDepth c 5 = 10 ∧ onBlurDepth c 400 = 300 ∧
    10 ≤ onBlurDepth v v ∧ onBlurDepth v v ≤ 300 := by
  unfold onBlurDepth
  refine ⟨by norm_num, by norm_num, ?_, ?_⟩ <;> split_ifs with h1 h2 <;> linarith

/-- C8: scale and reset operations only transform vertex positions of a
clone — the baked geometry, the height-extruded geometry and the
reset geometry all have exactly as many vertices as the geometry they
were derived from, so the mesh topology is invariant. -/
theorem mesh_topology_invariant (g : Geometry) (a : Axis) (sc hs : ℚ) (s : Session) :
    (applyAxisScale g a sc).length = g.length ∧
    (heightExtrude g hs).length = g.length ∧
    (resetOp s).displayed.length = s.base.length := by
  refine ⟨by simp [applyAxisScale], ?_, rfl⟩
  simp only [heightExtrude]
  split
  · simp
  · rfl

/-- C9: in the depth-plus-height variant, when the requested target
height is at most the current height (so the computed extrusion height is
≤ 0), the height step never moves a vertex: the per-vertex Y coordinates
of the installed geometry are exactly those of the base geometry, and the
Y extent is unchanged. -/
theorem shrink_height_noop (s : Session) (tD tH : ℚ)
    (hD : 0 < measureAxisExtent s.base Axis.z)
    (hH : 0 < measureAxisExtent s.base Axis.y)
    (hle : tH ≤ measureAxisExtent s.base Axis.y) :
    axisCoords (applyDepthHeight s tD tH).displayed Axis.y = axisCoords s.base Axis.y ∧
    measureAxisExtent (applyDepthHeight s tD tH).displayed Axis.y
      = measureAxisExtent s.base Axis.y := by
  have hdisp := displayed_applyDepthHeight s tD tH hD hH hle
  constructor
  · rw [hdisp]
    exact axisCoords_depthStep_y s tD
  · unfold measureAxisExtent
    rw [hdisp, axisCoords_depthStep_y s tD]

/-- Witness for C9: demo base with Y extent 20, height target 10 (a
shrink) and depth target 100. -/
theorem shrink_height_noop_witness :
    0 < measureAxisExtent demoSession.base Axis.z ∧
    0 < measureAxisExtent demoSession.base Axis.y ∧
    (10 : ℚ) ≤ measureAxisExtent demoSession.base Axis.y ∧
    axisCoords (applyDepthHeight demoSession 100 10).displayed Axis.y
      = axisCoords demoSession.base Axis.y ∧
    measureAxisExtent (applyDepthHeight demoSession 100 10).displayed Axis.y
      = measureAxisExtent demoSession.base Axis.y := by
  have hD : 0 < measureAxisExtent demoSession.base Axis.z := by
    norm_num [demoSession, demoBase, measureAxisExtent, axisCoords, axisCoord, listMax, listMin]
  have hH : 0 < measureAxisExtent demoSession.base Axis.y := by
    norm_num [demoSession, demoBase, measureAxisExtent, axisCoords, axisCoord, listMax, listMin]
  have hle : (10 : ℚ) ≤ measureAxisExtent demoSession.base Axis.y := by
    norm_num [demoSession, demoBase, measureAxisExtent, axisCoords, axisCoord, listMax, listMin]
  have hc := shrink_height_noop demoSession 100 10 hD hH hle
  exact ⟨hD, hH, hle, hc.1, hc.2⟩

/-- C10: requesting an STL export before any mesh has been loaded is a
safe no-op in both variants: the scene state is returned unchanged and no
download is created; the React variant additionally emits the
"No mesh to export" console warning, the main.ts variant returns
silently. -/
theorem export_no_mesh_noop (st : SceneState) (h : st.mesh = none) :
    exportSTL st = (st, { download := none, warned := true }) ∧
    exportCurrentMeshAsSTL st = (st, { download := none, warned := false }) := by
  unfold exportSTL exportCurrentMeshAsSTL
  rw [h]
  exact ⟨rfl, rfl⟩

/-- Witness for C10 at the initial scene state (nothing loaded yet). -/
theorem export_no_mesh_noop_witness :
    (SceneState.mk none none).mesh = none ∧
    exportSTL (SceneState.mk none none)
      = (SceneState.mk none none, { download := none, warned := true }) ∧
    exportCurrentMeshAsSTL (SceneState.mk none none)
      = (SceneState.mk none none, { download := none, warned := false }) := by
  have hc := export_no_mesh_noop (SceneState.mk none none) rfl
  exact ⟨rfl, hc.1, hc.2⟩
